import Mathlib

/-!
Shallow embedding of `src/ahu/Ahu.py` (class `Ahu`): the paginated
ingestion loop `fetch_data` and the normalization transform `copy_data`.

Documents are modelled as records of optional fields, mirroring the
loosely-structured MongoDB documents the Python code manipulates with
`dict.get` (absence = `none`).  Fallible dictionary indexing
(`document['bibliographic_info']`, `list[0]`) is modelled with
`Except String`, the error text naming the Python exception raised.
-/

namespace Ahu

/-- One entry of a record's `external_ids` list: a `{source, id}` pair. -/
structure ExternalId where
  source : Option String := none
  id : Option String := none
deriving DecidableEq

/-- One entry of `source.names`. -/
structure NamesEntry where
  name : Option String := none
deriving DecidableEq

/-- The `source.publisher` object. -/
structure PublisherInfo where
  name : Option String := none
  country_code : Option String := none
deriving DecidableEq

/-- The nested `source` object of a record. -/
structure SourceInfo where
  names : Option (List NamesEntry) := none
  publisher : Option PublisherInfo := none
deriving DecidableEq

/-- One entry of a record's `titles` list. -/
structure TitleEntry where
  title : Option String := none
  lang : Option String := none
deriving DecidableEq

/-- One entry of a record's `authors` list. -/
structure AuthorEntry where
  full_name : Option String := none
deriving DecidableEq

/-- The nested `bibliographic_info` object. -/
structure BibliographicInfo where
  volume : Option String := none
  issue : Option String := none
  start_page : Option String := none
  end_page : Option String := none
deriving DecidableEq

/-- A Source Record / Staged Record: the fields `Ahu.py` reads. -/
structure Document where
  abstract : Option String := none
  keep_abstract : Option Bool := none
  source : Option SourceInfo := none
  titles : Option (List TitleEntry) := none
  authors : Option (List AuthorEntry) := none
  year_published : Option String := none
  bibliographic_info : Option BibliographicInfo := none
  external_ids : Option (List ExternalId) := none
deriving DecidableEq

/-- A Normalized Record: the flat `new_document` built by `copy_data`
(lines 173-187 of `Ahu.py`). -/
structure NormalizedRecord where
  journal : String := ""
  publisher : String := ""
  country : String := ""
  title : String := ""
  author : String := ""
  year : String := ""
  volume : String := ""
  issue : String := ""
  page : String := ""
  language : String := ""
  abstract : String := ""
  doi : String := ""
  pmid : String := ""
deriving DecidableEq

/-! ### Ingestion loop (`fetch_data`, lines 59-92) -/

/-- `any(source.get("source") == "scholar" for source in
entry.get("external_ids", []))` (lines 76-77). -/
def hasScholarId (entry : Document) : Bool :=
  (entry.external_ids.getD []).any (fun e => e.source == some "scholar")

/-- Per-entry behaviour of the loop body at lines 76-79: an entry is
inserted (with `keep_abstract = False` set on it) exactly when it has no
`external_ids` entry with source `"scholar"`. -/
def scholarFilter (entry : Document) : Option Document :=
  if hasScholarId entry then none
  else some { entry with keep_abstract := some false }

/-- The records inserted into the staging collection while processing one
page's `data` list (the `for entry in aff["data"]` loop, lines 75-79). -/
def processPage (data : List Document) : List Document :=
  data.filterMap scholarFilter

/-- One page response from the remote API: the fields `fetch_data` reads. -/
structure ApiResponse where
  data : List Document := []
  total_results : Nat := 0
deriving DecidableEq

/-- The `while True` loop of `fetch_data` (lines 61-92), under the
assumption that every request succeeds (`pages` is total).  Returns the
records inserted into the staging collection and the list of page numbers
requested; `none` models fuel exhaustion (the loop still running). -/
def fetch_data_loop (pages : Nat → ApiResponse) (maxr page fuel : Nat) :
    Option (List Document × List Nat) :=
  match fuel with
  | 0 => none
  | f + 1 =>
    let resp := pages page
    let inserted := processPage resp.data
    if resp.total_results ≤ page * maxr then
      some (inserted, [page])
    else
      match fetch_data_loop pages maxr (page + 1) f with
      | none => none
      | some (ins, reqs) => some (inserted ++ ins, page :: reqs)

/-- `fetch_data`: the loop started at `page = 1` (line 59). -/
def fetch_data (pages : Nat → ApiResponse) (maxr fuel : Nat) :
    Option (List Document × List Nat) :=
  fetch_data_loop pages maxr 1 fuel

/-! ### Normalization transform (`copy_data`, lines 94-197) -/

/-- Python `str.split()` semantics on a code-point list: split on runs of
whitespace, dropping empty tokens.  `acc` is the current token, reversed. -/
def splitWsAux : List Char → List Char → List String
  | [], acc => if acc.isEmpty then [] else [String.mk acc.reverse]
  | c :: cs, acc =>
    if c.isWhitespace then
      if acc.isEmpty then splitWsAux cs []
      else String.mk acc.reverse :: splitWsAux cs []
    else splitWsAux cs (c :: acc)

/-- Python `full_name.split()` (line 143). -/
def pysplit (s : String) : List String :=
  splitWsAux s.toList []

/-- Python `"".join(parts)`: concatenation of a list of strings. -/
def concatAll : List String → String
  | [] => ""
  | s :: rest => s ++ concatAll rest

/-- Python `" and ".join(parts)` (line 151). -/
def joinAnd : List String → String
  | [] => ""
  | [s] => s
  | s :: rest => s ++ " and " ++ joinAnd rest

/-- Author formatting, lines 140-149: split the full name; if more than
one token, initials of the leading tokens, a comma, and the last token;
otherwise the full name unchanged. -/
def formatAuthor (a : AuthorEntry) : String :=
  let full_name := a.full_name.getD ""
  let name_parts := pysplit full_name
  if name_parts.length > 1 then
    concatAll (name_parts.dropLast.map (fun n => String.mk (n.data.take 1)))
      ++ ", " ++ name_parts.getLastD ""
  else full_name

/-- `document.get("source", {}).get("names", {})` (line 118), as the list
iterated over at lines 119-120 (an empty dict iterates as empty). -/
def namesOf (d : Document) : List NamesEntry :=
  match d.source with
  | none => []
  | some s => s.names.getD []

/-- `next((entry.get("name", "") for entry in source_name if "name" in
entry), "")` (lines 119-120): the `name` value of the first entry that has
a `name` key, else `""`. -/
def journalOf (d : Document) : String :=
  (((namesOf d).find? (fun entry => entry.name.isSome)).bind
    NamesEntry.name).getD ""

/-- Lines 121-133: `publisher` and `country`, empty unless `source` is
present and contains a `publisher` key. -/
def publisherCountryOf (d : Document) : String × String :=
  match d.source with
  | some s =>
    match s.publisher with
    | some p => (p.name.getD "", p.country_code.getD "")
    | none => ("", "")
  | none => ("", "")

/-- Line 113-116: the abstract, blanked when `keep_abstract` is `False`
(`document.get("keep_abstract", True)` defaults to true). -/
def abstractOf (d : Document) : String :=
  let a := d.abstract.getD ""
  if d.keep_abstract.getD true then a else ""

/-- `document.get('titles', [{}])[0]` (lines 135 and 161): the first
title entry, an empty placeholder when `titles` is absent, and an
`IndexError` when `titles` is present but empty. -/
def titlesHead (d : Document) : Except String TitleEntry :=
  match d.titles with
  | none => Except.ok {}
  | some [] => Except.error "IndexError: titles"
  | some (t :: _) => Except.ok t

/-- Lines 158-160: the `page` field from the (already defaulted)
`start_page` and `end_page` strings; Python truthiness on a string is
non-emptiness. -/
def pageOf (start_page end_page : String) : String :=
  if start_page ≠ "" ∧ end_page ≠ "" then start_page ++ " - " ++ end_page
  else if start_page ≠ "" ∨ end_page ≠ "" then start_page ++ end_page
  else ""

/-- The body of the `for external_ids in document['external_ids']` loop
at lines 166-171, acting on the `(doi, pmid)` accumulator. -/
def extractStep (acc : String × String) (e : ExternalId) : String × String :=
  let source := e.source.getD ""
  if source = "doi" then (e.id.getD "", acc.2)
  else if source = "pmid" then (acc.1, e.id.getD "")
  else acc

/-- Lines 163-171: `doi` and `pmid`, starting from `('', '')` and scanning
`external_ids` when the key is present. -/
def extractIds (d : Document) : String × String :=
  match d.external_ids with
  | none => ("", "")
  | some ids => ids.foldl extractStep ("", "")

/-- The `new_document` built at lines 173-187, given the first title
entry and the `bibliographic_info` object. -/
def mkNormalized (d : Document) (t0 : TitleEntry) (bib : BibliographicInfo) :
    NormalizedRecord :=
  { journal := journalOf d
  , publisher := (publisherCountryOf d).1
  , country := (publisherCountryOf d).2
  , title := t0.title.getD ""
  , author := joinAnd (((d.authors.getD []).take 3).map formatAuthor)
  , year := d.year_published.getD ""
  , volume := bib.volume.getD ""
  , issue := bib.issue.getD ""
  , page := pageOf (bib.start_page.getD "") (bib.end_page.getD "")
  , language := t0.lang.getD ""
  , abstract := abstractOf d
  , doi := (extractIds d).1
  , pmid := (extractIds d).2 }

/-- The per-record body of `copy_data` (lines 112-189).  The only two
fallible accesses are `document.get('titles', [{}])[0]` (line 135, first
in program order) and `document['bibliographic_info']` (line 154). -/
def normalizeDoc (d : Document) : Except String NormalizedRecord :=
  match titlesHead d with
  | Except.error e => Except.error e
  | Except.ok t0 =>
    match d.bibliographic_info with
    | none => Except.error "KeyError: bibliographic_info"
    | some bib => Except.ok (mkNormalized d t0 bib)

/-- The `for document in self.original_collection.find()` loop of
`copy_data`: normalize every staged record in order; the first failing
record aborts the whole run before anything is inserted. -/
def normalizeAll : List Document → Except String (List NormalizedRecord)
  | [] => Except.ok []
  | d :: rest =>
    match normalizeDoc d with
    | Except.error e => Except.error e
    | Except.ok r =>
      match normalizeAll rest with
      | Except.error e => Except.error e
      | Except.ok rs => Except.ok (r :: rs)

/-- `copy_data` as a whole: on success the batch is appended to the
destination collection by `insert_many` (line 192; a no-op append when
the batch is empty); a raised exception leaves the destination unchanged. -/
def copy_data (staging : List Document) (dest : List NormalizedRecord) :
    Except String (List NormalizedRecord) :=
  match normalizeAll staging with
  | Except.error e => Except.error e
  | Except.ok docs => Except.ok (dest ++ docs)

/-! ### Spec-side definitions

Independent formulations following the specification's words, to be
compared with the code-side definitions above. -/

/-- Spec: "initials are the first character of each leading token
concatenated with no separator". -/
def specInitials : List String → String
  | [] => ""
  | t :: ts => String.mk (t.data.take 1) ++ specInitials ts

/-- Spec: "split the full name on whitespace; if more than one token,
format as the initials of all but the last token, a comma-space, and the
last token; if exactly one token (or empty), use it unchanged". -/
def specFormatName (full : String) : String :=
  match pysplit full with
  | [] => full
  | [_] => full
  | toks => specInitials toks.dropLast ++ ", " ++ toks.getLastD ""

/-- Spec: "take at most the first 3 entries of authors", format each,
"join the formatted names with the literal separator `\x22 and \x22`". -/
def specAuthor (d : Document) : String :=
  joinAnd (((d.authors.getD []).take 3).map
    (fun a => specFormatName (a.full_name.getD "")))

/-- Spec: "both present → `\x22{start} - {end}\x22`; exactly one present →
the concatenation of whichever is present; neither present → empty",
where present means non-empty. -/
def pageSpec (s e : String) : String :=
  if s ≠ "" ∧ e ≠ "" then s ++ " - " ++ e
  else if s ≠ "" then s
  else if e ≠ "" then e
  else ""

/-- Spec: "last match wins if duplicates exist": the last entry of the
list satisfying the predicate. -/
def findLast (p : ExternalId → Bool) : List ExternalId → Option ExternalId
  | [] => none
  | e :: rest =>
    match findLast p rest with
    | some x => some x
    | none => if p e then some e else none

/-- Spec: "the id value associated with the entry whose `source == label`;
last match wins; absent (empty string) if no match". -/
def lastIdSpec (ids : List ExternalId) (label : String) : String :=
  match findLast (fun e => e.source == some label) ids with
  | some e => e.id.getD ""
  | none => ""

/-- Amended journal rule: the `name` value of the first entry of
`source.names` possessing a `name` field (possibly empty); `""` when none
does. -/
def firstNameKey : List NamesEntry → String
  | [] => ""
  | e :: rest =>
    match e.name with
    | some v => v
    | none => firstNameKey rest

/-- The journal rule as the specification states it: the `name` of the
first entry with a NON-EMPTY `name` field; `""` when none qualifies. -/
def firstNonEmptyName : List NamesEntry → String
  | [] => ""
  | e :: rest =>
    match e.name with
    | some v => if v ≠ "" then v else firstNonEmptyName rest
    | none => firstNonEmptyName rest

/-! ### Concrete documents used by witnesses and counterexamples -/

/-- A record carrying a `"scholar"` external id. -/
def docScholar : Document :=
  { external_ids := some [{ source := some "scholar", id := some "x" }] }

/-- A record with external ids but no `"scholar"` one. -/
def docPlain : Document :=
  { external_ids := some [{ source := some "doi", id := some "y" }] }

/-- A record with nothing but an (empty) `bibliographic_info` object. -/
def docOnlyBib : Document := { bibliographic_info := some {} }

/-- The all-empty normalized record. -/
def emptyRec : NormalizedRecord := {}

/-- A record with the specification's three example authors. -/
def docAuthors : Document :=
  { authors := some [⟨some "Jane Ann Doe"⟩, ⟨some "John Smith"⟩, ⟨some "Ann Lee"⟩]
  , bibliographic_info := some {} }

/-- The specification's example pagination object. -/
def bibPages : BibliographicInfo :=
  { start_page := some "10", end_page := some "20" }

/-- A record with start page 10 and end page 20. -/
def docPages : Document := { bibliographic_info := some bibPages }

/-- The specification's example `external_ids` list. -/
def docIds : Document :=
  { external_ids := some [{ source := some "doi", id := some "10.1/x" }
                          , { source := some "pmid", id := some "999" }]
  , bibliographic_info := some {} }

/-- Journal counterexample: the first `names` entry has a `name` key whose
value is empty, the second a non-empty one. -/
def docJournalEmptyFirst : Document :=
  { source := some { names := some [⟨some ""⟩, ⟨some "J"⟩] }
  , bibliographic_info := some {} }

/-- Journal witness: first entry lacks the `name` key, second has it. -/
def docJournalOk : Document :=
  { source := some { names := some [⟨none⟩, ⟨some "Revista"⟩] }
  , bibliographic_info := some {} }

/-- A record with an abstract and `keep_abstract = false`. -/
def docNoKeep : Document :=
  { abstract := some "A", keep_abstract := some false
  , bibliographic_info := some {} }

/-- A record with an abstract and `keep_abstract = true`. -/
def docKeep : Document :=
  { abstract := some "A", keep_abstract := some true
  , bibliographic_info := some {} }

/-! ### Helper lemmas -/

theorem normalizeDoc_ok_iff {d : Document} {r : NormalizedRecord} :
    normalizeDoc d = Except.ok r ↔
      ∃ t0 bib, titlesHead d = Except.ok t0 ∧ d.bibliographic_info = some bib ∧
        r = mkNormalized d t0 bib := by
  constructor
  · intro h
    unfold normalizeDoc at h
    rcases ht : titlesHead d with e | t0 <;> rw [ht] at h
    · simp at h
    · rcases hb : d.bibliographic_info with _ | bib <;> rw [hb] at h
      · simp at h
      · simp at h
        exact ⟨t0, bib, rfl, rfl, h.symm⟩
  · rintro ⟨t0, bib, ht, hb, rfl⟩
    unfold normalizeDoc
    rw [ht, hb]

theorem concatAll_map_take1 (l : List String) :
    concatAll (l.map (fun n => String.mk (n.data.take 1))) = specInitials l := by
  induction l with
  | nil => rfl
  | cons t ts ih => simp [concatAll, specInitials, ih]

theorem formatAuthor_eq_spec (a : AuthorEntry) :
    formatAuthor a = specFormatName (a.full_name.getD "") := by
  unfold formatAuthor specFormatName
  rcases h : pysplit (a.full_name.getD "") with _ | ⟨t, ts⟩
  · simp [h]
  · cases ts with
    | nil => simp [h]
    | cons t2 ts2 =>
      simp only [h, List.length_cons]
      rw [if_pos (by omega), concatAll_map_take1]

/-! ### Claim theorems -/

/-- C1: a Source Record processed by `fetch_data` is inserted into the
staging collection iff none of its `external_ids` entries has source
`"scholar"`, every inserted record carries `keep_abstract = false`, and a
page's inserted records are exactly the non-scholar ones so tagged. -/
theorem c1_ingestion_filter (entry : Document) (data : List Document) :
    (hasScholarId entry = true → scholarFilter entry = none) ∧
    (hasScholarId entry = false →
      scholarFilter entry = some { entry with keep_abstract := some false }) ∧
    (∀ e, scholarFilter entry = some e → e.keep_abstract = some false) ∧
    processPage data =
      (data.filter (fun e => !hasScholarId e)).map
        (fun e => { e with keep_abstract := some false }) := by
  refine ⟨?_, ?_, ?_, ?_⟩
  · intro h; simp [scholarFilter, h]
  · intro h; simp [scholarFilter, h]
  · intro e he
    unfold scholarFilter at he
    by_cases h : hasScholarId entry
    · rw [if_pos h] at he; cases he
    · rw [if_neg h] at he
      injection he with he
      rw [← he]
  · induction data with
    | nil => rfl
    | cons a l ih =>
      cases h : hasScholarId a <;>
        simp [processPage, List.filterMap_cons, scholarFilter, h] <;>
        simpa [processPage] using ih

/-- Witness for C1 at records with and without a `"scholar"` id. -/
theorem c1_ingestion_filter_witness :
    scholarFilter docScholar = none ∧
    scholarFilter docPlain = some { docPlain with keep_abstract := some false } :=
  ⟨(c1_ingestion_filter docScholar []).1 (by decide),
   (c1_ingestion_filter docPlain []).2.1 (by decide)⟩

/-- C2 (amended): the per-record transform tolerates missing nested
structure — it succeeds exactly when the `bibliographic_info` key is
present and `titles`, when present, is non-empty; a record with nothing
but an empty `bibliographic_info` normalizes to the all-empty record. -/
theorem c2_structural_tolerance (d : Document) :
    ((∃ r, normalizeDoc d = Except.ok r) ↔
      (d.titles ≠ some [] ∧ d.bibliographic_info ≠ none)) ∧
    normalizeDoc docOnlyBib = Except.ok emptyRec := by
  constructor
  · constructor
    · rintro ⟨r, hr⟩
      rcases normalizeDoc_ok_iff.mp hr with ⟨t0, bib, ht, hb, _⟩
      constructor
      · intro hT
        unfold titlesHead at ht
        rw [hT] at ht
        simp at ht
      · intro hB
        rw [hB] at hb
        cases hb
    · rintro ⟨hT, hB⟩
      have ht : ∃ t0, titlesHead d = Except.ok t0 := by
        unfold titlesHead
        rcases h : d.titles with _ | ts
        · exact ⟨{}, rfl⟩
        · cases ts with
          | nil => exact absurd h hT
          | cons t rest => exact ⟨t, rfl⟩
      rcases ht with ⟨t0, ht⟩
      rcases hb : d.bibliographic_info with _ | bib
      · exact absurd hb hB
      · exact ⟨mkNormalized d t0 bib, normalizeDoc_ok_iff.mpr ⟨t0, bib, ht, hb, rfl⟩⟩
  · rfl

/-- Counterexample to C2 as stated: a record with `bibliographic_info`
absent makes the transform fail the whole record (a `KeyError` at
`document['bibliographic_info']`, line 154). -/
theorem c2_counterexample :
    normalizeDoc ({} : Document) = Except.error "KeyError: bibliographic_info" ∧
    ({} : Document).bibliographic_info = none :=
  ⟨rfl, rfl⟩

/-- C4: the normalized `author` field is the first 3 authors, each
formatted per the specification's splitting rule, joined by " and ". -/
theorem c4_author_formatting (d : Document) (r : NormalizedRecord)
    (h : normalizeDoc d = Except.ok r) :
    r.author = specAuthor d := by
  rcases normalizeDoc_ok_iff.mp h with ⟨t0, bib, _, _, rfl⟩
  have hf : formatAuthor = fun a => specFormatName (a.full_name.getD "") :=
    funext formatAuthor_eq_spec
  simp [mkNormalized, specAuthor, hf]

/-- Witness for C4 at the specification's example authors. -/
theorem c4_author_formatting_witness :
    (mkNormalized docAuthors {} {}).author = specAuthor docAuthors ∧
    specAuthor docAuthors = "JA, Doe and J, Smith and A, Lee" ∧
    formatAuthor ⟨some "Jane Ann Doe"⟩ = "JA, Doe" ∧
    formatAuthor ⟨some "Doe"⟩ = "Doe" ∧
    formatAuthor ⟨some ""⟩ = "" :=
  ⟨c4_author_formatting docAuthors (mkNormalized docAuthors {} {}) rfl,
   by decide, by decide, by decide, by decide⟩

/-- `pageOf` (lines 158-160) agrees with the specification's page rule. -/
theorem pageOf_eq_pageSpec (s e : String) : pageOf s e = pageSpec s e := by
  unfold pageOf pageSpec
  by_cases hs : s = "" <;> by_cases he : e = "" <;> simp [hs, he]

/-- C5: the normalized `page` field is "start - end" when both bounds are
non-empty, the present bound alone when exactly one is, empty otherwise. -/
theorem c5_page_derivation (d : Document) (r : NormalizedRecord)
    (bib : BibliographicInfo) (h : normalizeDoc d = Except.ok r)
    (hb : d.bibliographic_info = some bib) :
    r.page = pageSpec (bib.start_page.getD "") (bib.end_page.getD "") := by
  rcases normalizeDoc_ok_iff.mp h with ⟨t0, bib2, _, hb2, rfl⟩
  rw [hb] at hb2
  injection hb2 with hbb
  rw [← hbb]
  simp [mkNormalized, pageOf_eq_pageSpec]

/-- Witness for C5 at the specification's page examples. -/
theorem c5_page_derivation_witness :
    (mkNormalized docPages {} bibPages).page
        = pageSpec (bibPages.start_page.getD "") (bibPages.end_page.getD "") ∧
    pageSpec "10" "20" = "10 - 20" ∧ pageSpec "10" "" = "10" ∧
    pageSpec "" "" = "" :=
  ⟨c5_page_derivation docPages (mkNormalized docPages {} bibPages) bibPages rfl rfl,
   by decide, by decide, by decide⟩

/-- The loop body's effect on the `doi` component. -/
theorem extractStep_fst (acc : String × String) (e : ExternalId) :
    (extractStep acc e).1 =
      if e.source == some "doi" then e.id.getD "" else acc.1 := by
  unfold extractStep
  rcases h : e.source with _ | s
  · simp
  · by_cases hs : s = "doi"
    · simp [hs]
    · by_cases hp : s = "pmid" <;> simp [hs, hp]

/-- The loop body's effect on the `pmid` component. -/
theorem extractStep_snd (acc : String × String) (e : ExternalId) :
    (extractStep acc e).2 =
      if e.source == some "pmid" then e.id.getD "" else acc.2 := by
  unfold extractStep
  rcases h : e.source with _ | s
  · simp
  · by_cases hs : s = "doi"
    · simp [hs]
    · by_cases hp : s = "pmid" <;> simp [hs, hp]

/-- The `external_ids` scan computes, in each component, the id of the
last matching entry (or keeps the accumulator). -/
theorem foldl_extract (ids : List ExternalId) (acc : String × String) :
    ids.foldl extractStep acc =
      ((match findLast (fun e => e.source == some "doi") ids with
        | some e => e.id.getD ""
        | none => acc.1),
       (match findLast (fun e => e.source == some "pmid") ids with
        | some e => e.id.getD ""
        | none => acc.2)) := by
  induction ids generalizing acc with
  | nil => rfl
  | cons e rest ih =>
    rw [List.foldl_cons, ih]
    rcases hd : findLast (fun x => x.source == some "doi") rest with _ | xd <;>
      rcases hp : findLast (fun x => x.source == some "pmid") rest with _ | xp <;>
        simp only [findLast, hd, hp, extractStep_fst, extractStep_snd] <;>
        by_cases hde : (e.source == some "doi") = true <;>
          by_cases hpe : (e.source == some "pmid") = true <;>
            simp [hde, hpe]

/-- C6: the normalized `doi` / `pmid` fields are the id of the last
`external_ids` entry with source "doi" / "pmid", empty when there is no
match or no `external_ids` at all. -/
theorem c6_doi_pmid (d : Document) (r : NormalizedRecord)
    (h : normalizeDoc d = Except.ok r) :
    r.doi = lastIdSpec (d.external_ids.getD []) "doi" ∧
    r.pmid = lastIdSpec (d.external_ids.getD []) "pmid" := by
  rcases normalizeDoc_ok_iff.mp h with ⟨t0, bib, _, _, rfl⟩
  have hx : extractIds d = (d.external_ids.getD []).foldl extractStep ("", "") := by
    unfold extractIds
    rcases d.external_ids with _ | ids <;> rfl
  constructor <;> simp [mkNormalized, hx, foldl_extract, lastIdSpec]

/-- Witness for C6 at the specification's example id list. -/
theorem c6_doi_pmid_witness :
    (mkNormalized docIds {} {}).doi = lastIdSpec (docIds.external_ids.getD []) "doi" ∧
    (mkNormalized docIds {} {}).pmid = lastIdSpec (docIds.external_ids.getD []) "pmid" ∧
    lastIdSpec (docIds.external_ids.getD []) "doi" = "10.1/x" ∧
    lastIdSpec (docIds.external_ids.getD []) "pmid" = "999" ∧
    lastIdSpec [] "doi" = "" ∧ lastIdSpec [] "pmid" = "" :=
  ⟨(c6_doi_pmid docIds (mkNormalized docIds {} {}) rfl).1,
   (c6_doi_pmid docIds (mkNormalized docIds {} {}) rfl).2,
   by decide, by decide, by decide, by decide⟩

/-- The code's journal lookup equals the first-`name`-key rule. -/
theorem find_name_eq_firstNameKey (l : List NamesEntry) :
    ((l.find? (fun entry => entry.name.isSome)).bind NamesEntry.name).getD ""
      = firstNameKey l := by
  induction l with
  | nil => rfl
  | cons e rest ih =>
    rcases h : e.name with _ | v
    · simpa [List.find?, h, firstNameKey] using ih
    · simp [List.find?, h, firstNameKey]

/-- C7 (amended): the normalized `journal` field is the `name` value of
the first `source.names` entry POSSESSING a `name` field (even an empty
one); empty when `source.names` is absent or no entry has the field. -/
theorem c7_journal_amended (d : Document) (r : NormalizedRecord)
    (h : normalizeDoc d = Except.ok r) :
    r.journal = firstNameKey (namesOf d) := by
  rcases normalizeDoc_ok_iff.mp h with ⟨t0, bib, _, _, rfl⟩
  simp [mkNormalized, journalOf, find_name_eq_firstNameKey]

/-- Counterexample to C7 as stated: when the first `names` entry has an
EMPTY `name` and the second a non-empty one, the code yields the empty
first value, not the first non-empty `name` the claim demands. -/
theorem c7_counterexample :
    normalizeDoc docJournalEmptyFirst
        = Except.ok (mkNormalized docJournalEmptyFirst {} {}) ∧
    (mkNormalized docJournalEmptyFirst {} {}).journal = "" ∧
    firstNonEmptyName (namesOf docJournalEmptyFirst) = "J" ∧
    ("" : String) ≠ "J" :=
  ⟨rfl, by decide, by decide, by decide⟩

/-- Witness for C7 (amended): an entry without a `name` key is skipped. -/
theorem c7_journal_amended_witness :
    (mkNormalized docJournalOk {} {}).journal = firstNameKey (namesOf docJournalOk) ∧
    firstNameKey (namesOf docJournalOk) = "Revista" :=
  ⟨c7_journal_amended docJournalOk (mkNormalized docJournalOk {} {}) rfl,
   by decide⟩

/-- C8: the normalized `abstract` is blanked when `keep_abstract` is
`false`, and is the record's abstract verbatim when the flag is `true`
or absent. -/
theorem c8_abstract_suppression (d : Document) (r : NormalizedRecord)
    (h : normalizeDoc d = Except.ok r) :
    (d.keep_abstract = some false → r.abstract = "") ∧
    (d.keep_abstract ≠ some false →
      ∀ a, d.abstract = some a → r.abstract = a) := by
  rcases normalizeDoc_ok_iff.mp h with ⟨t0, bib, _, _, rfl⟩
  constructor
  · intro hk
    simp [mkNormalized, abstractOf, hk]
  · intro hk a ha
    have hkt : d.keep_abstract.getD true = true := by
      rcases hkv : d.keep_abstract with _ | b
      · rfl
      · cases b
        · exact absurd hkv hk
        · rfl
    simp [mkNormalized, abstractOf, hkt, ha]

/-- Witness for C8 with `keep_abstract` false and true. -/
theorem c8_abstract_suppression_witness :
    (mkNormalized docNoKeep {} {}).abstract = "" ∧
    (mkNormalized docKeep {} {}).abstract = "A" :=
  ⟨(c8_abstract_suppression docNoKeep (mkNormalized docNoKeep {} {}) rfl).1 rfl,
   (c8_abstract_suppression docKeep (mkNormalized docKeep {} {}) rfl).2
     (by decide) "A" rfl⟩

/-- With a constant reported total and enough fuel, the ingestion loop
halts at the first page `p` (from `page` on) whose offset covers the
total, having requested exactly the pages `page, ..., p`. -/
theorem fetch_loop_halts (pages : Nat → ApiResponse) (maxr T : Nat)
    (hT : ∀ p, (pages p).total_results = T) :
    ∀ fuel page, 0 < fuel → T ≤ (page + (fuel - 1)) * maxr →
      ∃ p ins, page ≤ p ∧ T ≤ p * maxr ∧
        (∀ q, page ≤ q → q < p → q * maxr < T) ∧
        fetch_data_loop pages maxr page fuel
          = some (ins, List.range' page (p + 1 - page)) := by
  intro fuel
  induction fuel with
  | zero => intro page h0 _; exact absurd h0 (lt_irrefl 0)
  | succ f ih =>
    intro page _ hb
    have hb' : T ≤ (page + f) * maxr := by
      have he : page + (f + 1 - 1) = page + f := by omega
      rwa [he] at hb
    by_cases hstop : T ≤ page * maxr
    · refine ⟨page, processPage (pages page).data, Nat.le_refl _, hstop, ?_, ?_⟩
      · intro q h1 h2; omega
      · have h1 : page + 1 - page = 1 := by omega
        rw [h1]
        simp [fetch_data_loop, hT page, hstop, List.range']
    · have hlt : page * maxr < T := Nat.not_le.mp hstop
      have hf : 0 < f := by
        rcases Nat.eq_zero_or_pos f with h | h
        · subst h; simp at hb'; omega
        · exact h
      have hb2 : T ≤ (page + 1 + (f - 1)) * maxr := by
        have he : page + 1 + (f - 1) = page + f := by omega
        rwa [he]
      obtain ⟨p, ins, hlep, hTp, hmin, heq⟩ := ih (page + 1) hf hb2
      refine ⟨p, processPage (pages page).data ++ ins, by omega, hTp, ?_, ?_⟩
      · intro q h1 h2
        rcases Nat.eq_or_lt_of_le h1 with h | h
        · rw [← h]; exact hlt
        · exact hmin q h h2
      · have h1 : p + 1 - page = (p + 1 - (page + 1)) + 1 := by omega
        rw [h1, List.range'_succ]
        simp [fetch_data_loop, hT page, hstop, heq]

/-- C3: assuming every page reports the same `total_results = T` and no
request fails, the loop stops at the first page `p` with
`p * page_size >= T`, having requested pages `1..p`; with `T = 250` and
page size 100 exactly the pages `[1, 2, 3]` are requested. -/
theorem c3_termination (pages : Nat → ApiResponse) (maxr T : Nat)
    (hmax : 0 < maxr) (hT : ∀ p, (pages p).total_results = T) :
    (∃ p ins, 1 ≤ p ∧ T ≤ p * maxr ∧
        (∀ q, 1 ≤ q → q < p → q * maxr < T) ∧
        fetch_data pages maxr (T + 1) = some (ins, List.range' 1 p)) ∧
    fetch_data (fun _ => { data := [], total_results := 250 }) 100 251
      = some ([], [1, 2, 3]) := by
  constructor
  · have hfuel : 0 < T + 1 := Nat.succ_pos T
    have hbound : T ≤ (1 + (T + 1 - 1)) * maxr := by
      have h1 : 1 + (T + 1 - 1) = T + 1 := by omega
      rw [h1]
      calc T ≤ T + 1 := Nat.le_succ T
        _ ≤ (T + 1) * maxr := Nat.le_mul_of_pos_right (T + 1) hmax
    obtain ⟨p, ins, hp1, hTp, hmin, heq⟩ :=
      fetch_loop_halts pages maxr T hT (T + 1) 1 hfuel hbound
    have hp : p + 1 - 1 = p := by omega
    rw [hp] at heq
    exact ⟨p, ins, hp1, hTp, hmin, heq⟩
  · rfl

/-- Witness for C3: the concrete 250-results, page-size-100 run. -/
theorem c3_termination_witness :
    fetch_data (fun _ => { data := [], total_results := 250 }) 100 251
      = some ([], [1, 2, 3]) :=
  (c3_termination (fun _ => { data := [], total_results := 250 }) 100 250
    (by decide) (fun _ => rfl)).2

/-- A successful `normalizeAll` yields one output per staged record. -/
theorem normalizeAll_ok_length :
    ∀ {staging : List Document} {rs : List NormalizedRecord},
      normalizeAll staging = Except.ok rs → rs.length = staging.length := by
  intro staging
  induction staging with
  | nil =>
    intro rs h
    unfold normalizeAll at h
    simp at h
    subst h
    rfl
  | cons d rest ih =>
    intro rs h
    unfold normalizeAll at h
    rcases hd : normalizeDoc d with e | r <;> rw [hd] at h
    · simp at h
    · rcases hr : normalizeAll rest with e | rs2 <;> rw [hr] at h
      · simp at h
      · simp at h
        rw [← h]
        simp [ih hr]

/-- Pointwise content of a successful `normalizeAll` run. -/
theorem normalizeAll_get? :
    ∀ {staging : List Document} {rs : List NormalizedRecord},
      normalizeAll staging = Except.ok rs →
      ∀ i, (staging.get? i).map normalizeDoc = (rs.get? i).map Except.ok := by
  intro staging
  induction staging with
  | nil =>
    intro rs h i
    unfold normalizeAll at h
    simp at h
    subst h
    rfl
  | cons d rest ih =>
    intro rs h i
    unfold normalizeAll at h
    rcases hd : normalizeDoc d with e | r <;> rw [hd] at h
    · simp at h
    · rcases hr : normalizeAll rest with e | rs2 <;> rw [hr] at h
      · simp at h
      · simp at h
        rw [← h]
        cases i with
        | zero => simp [hd]
        | succ j => simpa using ih hr j

/-- C9 (amended): for a non-empty staging collection whose records all
normalize successfully, one `copy_data` run appends exactly one record
per staged record, and a second run against the unchanged staging
collection appends the same batch again — no deduplication. -/
theorem c9_no_dedup (staging : List Document) (dest rs : List NormalizedRecord)
    (hne : staging ≠ []) (hok : normalizeAll staging = Except.ok rs) :
    copy_data staging dest = Except.ok (dest ++ rs) ∧
    (dest ++ rs).length = dest.length + staging.length ∧
    copy_data staging (dest ++ rs) = Except.ok (dest ++ rs ++ rs) ∧
    rs ≠ [] := by
  have hlen := normalizeAll_ok_length hok
  refine ⟨?_, ?_, ?_, ?_⟩
  · unfold copy_data; rw [hok]
  · simp [hlen]
  · unfold copy_data; rw [hok]
  · intro h0
    rw [h0] at hlen
    exact hne (List.length_eq_zero.mp hlen.symm)

/-- Counterexample to C9 as stated: a non-empty staging collection whose
single record fails to normalize makes the run abort, appending nothing
(not one record per staged record). -/
theorem c9_counterexample :
    copy_data [({} : Document)] [] = Except.error "KeyError: bibliographic_info" ∧
    ([({} : Document)] : List Document) ≠ [] :=
  ⟨rfl, by decide⟩

/-- Witness for C9 (amended) on a one-record staging collection. -/
theorem c9_no_dedup_witness :
    copy_data [docOnlyBib] [] = Except.ok ([] ++ [emptyRec]) ∧
    (([] : List NormalizedRecord) ++ [emptyRec]).length
        = ([] : List NormalizedRecord).length + [docOnlyBib].length ∧
    copy_data [docOnlyBib] ([] ++ [emptyRec])
        = Except.ok ([] ++ [emptyRec] ++ [emptyRec]) ∧
    ([emptyRec] : List NormalizedRecord) ≠ [] :=
  c9_no_dedup [docOnlyBib] [] [emptyRec] (by decide) rfl

/-- C10: `copy_data` is deterministic — the batch appended depends only
on the staging collection's records (order included), and on success it
is pointwise `normalizeDoc` of the staged records, in order. -/
theorem c10_determinism (staging : List Document)
    (dest1 dest2 : List NormalizedRecord) :
    Except.map (fun out => out.drop dest1.length) (copy_data staging dest1)
      = Except.map (fun out => out.drop dest2.length) (copy_data staging dest2) ∧
    ∀ rs, normalizeAll staging = Except.ok rs →
      rs.length = staging.length ∧
      ∀ i, (staging.get? i).map normalizeDoc = (rs.get? i).map Except.ok := by
  constructor
  · unfold copy_data
    rcases h : normalizeAll staging with e | rs
    · rfl
    · simp only [Except.map]
      rw [List.drop_left, List.drop_left]
  · intro rs h
    exact ⟨normalizeAll_ok_length h, normalizeAll_get? h⟩

/-- Witness for C10 on a one-record staging collection. -/
theorem c10_determinism_witness :
    ([emptyRec] : List NormalizedRecord).length = [docOnlyBib].length ∧
    ([docOnlyBib].get? 0).map normalizeDoc
      = (([emptyRec] : List NormalizedRecord).get? 0).map Except.ok :=
  ⟨((c10_determinism [docOnlyBib] [] []).2 [emptyRec] rfl).1,
   ((c10_determinism [docOnlyBib] [] []).2 [emptyRec] rfl).2 0⟩

end Ahu
